import Mathlib

set_option maxRecDepth 2048

/-!
Verification development for the quantum_rng repository core
(src/src/quantum_rng/quantum_rng.c together with its header).

Modelling conventions:
* Unsigned 64-bit machine integers are `Nat` values; every multiplication
  is reduced modulo `2^64` (`mul64`), matching C wrap-around semantics.
  XOR and logical right shift keep values below `2^64` when the inputs
  are, so no reduction is inserted there, exactly as in the C source.
* IEEE-754 doubles are modelled as real numbers; the transcendental
  functions of math.h become the corresponding `Real` functions.  The C
  expression `(double)UINT64_MAX` rounds to `2^64` exactly, so casts
  `(double)x / UINT64_MAX` and `(uint64_t)(d * UINT64_MAX)` are modelled
  with the real constant `2^64`.
* Host nondeterminism (gettimeofday, getpid, clock, stack address,
  rdtsc) is an explicit oracle: an `Env` record carrying the one-shot
  init readings and an infinite stream of clock words, consumed one
  entry per `gettimeofday` call inside `get_runtime_entropy`.  Stateful
  C code becomes explicit state passing over a `QrngCtx` record plus the
  next oracle index.
-/

namespace QRng

/-- 2^64, the modulus of unsigned 64-bit arithmetic. -/
def U64 : Nat := 18446744073709551616

/-- 2^32, the modulus of unsigned 32-bit arithmetic. -/
def U32 : Nat := 4294967296

/-- Unsigned 64-bit multiplication: multiply and wrap modulo 2^64. -/
def mul64 (a b : Nat) : Nat := (a * b) % U64

/-- Constant QRNG_FINE_STRUCTURE from quantum_rng.c. -/
def QRNG_FINE_STRUCTURE : Nat := 0x7297352743776A1B

/-- Constant QRNG_PLANCK from quantum_rng.c. -/
def QRNG_PLANCK : Nat := 0x6955927086495225

/-- Constant QRNG_RYDBERG from quantum_rng.c. -/
def QRNG_RYDBERG : Nat := 0x9E3779B97F4A7C15

/-- Constant QRNG_ELECTRON_G from quantum_rng.c. -/
def QRNG_ELECTRON_G : Nat := 0x2B992DDFA232945

/-- Constant QRNG_GOLDEN_RATIO from quantum_rng.c. -/
def QRNG_GOLDEN_RATIO : Nat := 0x9E3779B97F4A7C15

/-- Constant QRNG_HEISENBERG from quantum_rng.c. -/
def QRNG_HEISENBERG : Nat := 0xC13FA9A902A6328F

/-- Constant QRNG_SCHRODINGER from quantum_rng.c. -/
def QRNG_SCHRODINGER : Nat := 0x91E10DA5C79E7B1D

/-- Constant QRNG_PAULI_X from quantum_rng.c. -/
def QRNG_PAULI_X : Nat := 0x4C957F2D8A1E6B3C

/-- Constant QRNG_PAULI_Y from quantum_rng.c. -/
def QRNG_PAULI_Y : Nat := 0xD3E99E3B6C1A4F78

/-- Constant QRNG_PAULI_Z from quantum_rng.c. -/
def QRNG_PAULI_Z : Nat := 0x8F142FC07892A5B6

/-- splitmix64 as written in quantum_rng.c lines 59-68. -/
def splitmix64 (x0 : Nat) : Nat :=
  let x := x0 ^^^ (x0 >>> 30)
  let x := mul64 x 0xbf58476d1ce4e5b9
  let x := x ^^^ (x >>> 27)
  let x := mul64 x 0x94d049bb133111eb
  let x := x ^^^ (x >>> 31)
  let x := mul64 x QRNG_HEISENBERG
  x ^^^ (x >>> 29)

/-- hadamard_mix as written in quantum_rng.c lines 71-81: splitmix64
followed by a fixed multiply/xor cascade. -/
def hadamard_mix (x0 : Nat) : Nat :=
  let x := splitmix64 x0
  let x := x ^^^ mul64 QRNG_PAULI_X (x >>> 12)
  let x := mul64 x QRNG_FINE_STRUCTURE
  let x := x ^^^ mul64 QRNG_PAULI_Y (x >>> 25)
  let x := mul64 x QRNG_PLANCK
  let x := x ^^^ mul64 QRNG_PAULI_Z (x >>> 27)
  let x := mul64 x QRNG_SCHRODINGER
  x ^^^ (x >>> 13)

/-- The scalar mixer exactly as the specification words it (spec section
4.1): one flat sequence that first performs the SplitMix-64 avalanche
with the two SplitMix constants, HEISENBERG and the shift schedule
30/27/31/29, then the cascade PAULI_X(12), FINE_STRUCTURE, PAULI_Y(25),
PLANCK, PAULI_Z(27), SCHRODINGER, and a final shift-13 fold. -/
def hadamard_mix_specified (x0 : Nat) : Nat :=
  let x := x0 ^^^ (x0 >>> 30)
  let x := mul64 x 0xBF58476D1CE4E5B9
  let x := x ^^^ (x >>> 27)
  let x := mul64 x 0x94D049BB133111EB
  let x := x ^^^ (x >>> 31)
  let x := mul64 x QRNG_HEISENBERG
  let x := x ^^^ (x >>> 29)
  let x := x ^^^ mul64 QRNG_PAULI_X (x >>> 12)
  let x := mul64 x QRNG_FINE_STRUCTURE
  let x := x ^^^ mul64 QRNG_PAULI_Y (x >>> 25)
  let x := mul64 x QRNG_PLANCK
  let x := x ^^^ mul64 QRNG_PAULI_Z (x >>> 27)
  let x := mul64 x QRNG_SCHRODINGER
  x ^^^ (x >>> 13)

/-- The real constant that `(double)UINT64_MAX` denotes: the conversion
of `2^64 - 1` to IEEE-754 double rounds to `2^64` exactly. -/
noncomputable def UD : ℝ := 18446744073709551616

/-- The C cast `(uint64_t)d` (truncation toward zero).  In the source it
is only ever applied to values in `[0, 2^64)`, where it is `⌊d⌋`. -/
noncomputable def f2u (r : ℝ) : Nat := Int.toNat ⌊r⌋

/-- quantum_noise from quantum_rng.c lines 37-56, with IEEE-754 doubles
modelled as real numbers and the math.h transcendentals as the `Real`
functions. -/
noncomputable def quantum_noise (x : ℝ) : ℝ :=
  let noise := |Real.sin (x * Real.pi) * Real.cos (x * Real.exp 1)|
  let momentum := Real.cos (noise * (QRNG_FINE_STRUCTURE : ℝ))
  let position := Real.sin (noise * (QRNG_PLANCK : ℝ))
  let noise := (momentum * momentum + position * position) * 0.5
  let noise := Real.sqrt (noise * (1 - noise))
  noise - (⌊noise⌋ : ℝ)

/-- Host-entropy oracle: the one-shot readings consumed by qrng_init and
an infinite stream of gettimeofday words, one entry consumed per call of
get_runtime_entropy.  `it_sec`/`it_usec` are the init_time reading of
qrng_init line 265; `tv0_sec`/`tv0_usec` are the separate gettimeofday
reading inside get_system_entropy. -/
structure Env where
  clock : Nat → Nat
  it_sec : Nat
  it_usec : Nat
  tv0_sec : Nat
  tv0_usec : Nat
  pid : Nat
  clk : Nat
  stack_addr : Nat
  tsc : Nat

/-- get_system_entropy from quantum_rng.c lines 84-102: the XOR fold of
the host readings supplied by the oracle. -/
def get_system_entropy (env : Env) : Nat :=
  let e := ((env.tv0_sec <<< 32) % U64) ||| (env.tv0_usec % U64)
  let e := e ^^^ ((env.pid <<< 32) % U64)
  let e := e ^^^ (env.clk % U64)
  let e := e ^^^ (env.stack_addr % U64)
  e ^^^ (env.tsc % U64)

/-- The qrng_ctx structure from quantum_rng.h.  The 128-byte refill
buffer is carried as its 16 unsigned 64-bit words; the byte view is
recovered little-endian by `bufByte` (spec section 6 fixes the reference
behaviour to little-endian word-to-byte layout). -/
structure QrngCtx where
  phase : Fin 8 → Nat
  entangle : Fin 8 → Nat
  quantum_state : Fin 8 → ℝ
  last_measurement : Fin 8 → Nat
  buffer : Fin 16 → Nat
  buffer_pos : Nat
  counter : Nat
  entropy_pool : Fin 16 → ℝ
  pool_mixer : Nat
  pool_index : Nat
  init_sec : Nat
  init_usec : Nat
  pid : Nat
  unique_id : Nat
  system_entropy : Nat
  runtime_entropy : Nat

/-- Reduce a lane index into `Fin 8`. -/
def fin8 (i : Nat) : Fin 8 := ⟨i % 8, Nat.mod_lt _ (by norm_num)⟩

/-- Reduce a pool or word index into `Fin 16`. -/
def fin16 (i : Nat) : Fin 16 := ⟨i % 16, Nat.mod_lt _ (by norm_num)⟩

/-- Byte `j` of the refill buffer: little-endian byte `j % 8` of word
`j / 8`, matching the union of `bytes[128]` and `words[16]` in the
header on a little-endian host. -/
def bufByte (c : QrngCtx) (j : Nat) : Nat :=
  (c.buffer (fin16 (j / 8)) >>> (8 * (j % 8))) % 256

/-- get_runtime_entropy from quantum_rng.c lines 105-116: fold the next
clock word with the stored identifiers and the counter, then
hadamard_mix.  The caller advances the oracle index by one. -/
def get_runtime_entropy (env : Env) (k : Nat) (c : QrngCtx) : Nat :=
  hadamard_mix ((env.clock k % U64) ^^^ c.system_entropy ^^^ c.unique_id ^^^ c.counter)

/-- hadamard_gate from quantum_rng.c lines 119-135. -/
noncomputable def hadamard_gate (x : Nat) : Nat :=
  let state := (x : ℝ) / UD
  let state := quantum_noise state
  let superposition := f2u (state * UD) ^^^ x
  let superposition := hadamard_mix superposition
  let phase := quantum_noise (state + 0.5)
  let rotation := f2u (phase * UD)
  let superposition := superposition ^^^ rotation
  hadamard_mix superposition

/-- phase_gate from quantum_rng.c lines 138-152. -/
noncomputable def phase_gate (x angle : Nat) : Nat :=
  let phase := (angle : ℝ) / UD
  let phase := quantum_noise phase
  let mixed := f2u (phase * UD)
  let mixed := hadamard_mix (mul64 mixed QRNG_RYDBERG)
  let mixed := mixed ^^^ mul64 QRNG_PAULI_X (mixed >>> 17)
  let mixed := mul64 mixed QRNG_HEISENBERG
  let mixed := mixed ^^^ mul64 QRNG_PAULI_Y (mixed >>> 23)
  let mixed := mul64 mixed QRNG_SCHRODINGER
  x ^^^ mixed

/-- measure_state from quantum_rng.c lines 155-185.  Returns the
measured word, the updated context and the advanced oracle index.  Note
that line 170 reads the pool at the already incremented pool_index. -/
noncomputable def measure_state (env : Env) (k : Nat) (c0 : QrngCtx)
    (quantum_state : ℝ) (last : Nat) : Nat × QrngCtx × Nat :=
  let re := get_runtime_entropy env k c0
  let c := { c0 with runtime_entropy := re }
  let k := k + 1
  let collapsed := quantum_noise (quantum_state + (re : ℝ) / UD)
  let slot := quantum_noise (c.entropy_pool (fin16 c.pool_index) + collapsed + (re : ℝ) / UD)
  let c := { c with entropy_pool := Function.update c.entropy_pool (fin16 c.pool_index) slot }
  let c := { c with pool_index := (c.pool_index + 1) &&& 15 }
  let pm := hadamard_mix (c.pool_mixer ^^^ f2u (c.entropy_pool (fin16 c.pool_index) * UD) ^^^ re)
  let c := { c with pool_mixer := pm }
  let result := f2u (collapsed * UD)
  let result := hadamard_mix (result ^^^ mul64 last QRNG_ELECTRON_G ^^^ re)
  let result := result ^^^ mul64 QRNG_PAULI_X (c.pool_mixer >>> 29)
  let result := mul64 result QRNG_HEISENBERG
  let result := result ^^^ mul64 QRNG_PAULI_Y (result >>> 31)
  let result := mul64 result QRNG_SCHRODINGER
  let result := result ^^^ mul64 QRNG_PAULI_Z (result >>> 27)
  (result, c, k)

/-- One iteration of the inner lane loop of quantum_step (quantum_rng.c
lines 201-232).  The folded state is (context, mixer, oracle index). -/
noncomputable def stepLane (env : Env) (roundv : Nat)
    (st : QrngCtx × Nat × Nat) (i : Nat) : QrngCtx × Nat × Nat :=
  let c := st.1
  let mixer := st.2.1
  let k := st.2.2
  let ph := hadamard_gate ((c.counter + mixer + i + roundv + c.runtime_entropy) % U64)
  let c := { c with phase := Function.update c.phase (fin8 i) ph }
  let qs := quantum_noise ((c.phase (fin8 i) : ℝ) / UD + c.entropy_pool (fin16 (i &&& 15)) + (c.runtime_entropy : ℝ) / UD)
  let c := { c with quantum_state := Function.update c.quantum_state (fin8 i) qs }
  let m := measure_state env k c (c.quantum_state (fin8 i)) (c.last_measurement (fin8 i))
  let measured := m.1
  let c := m.2.1
  let k := m.2.2
  let en := phase_gate measured (c.counter ^^^ mixer ^^^ c.runtime_entropy)
  let c := { c with entangle := Function.update c.entangle (fin8 i) en }
  let c := { c with last_measurement := Function.update c.last_measurement (fin8 i) measured }
  let c := if 0 < i then
      let en2 := c.entangle (fin8 i) ^^^ hadamard_mix (c.entangle (fin8 (i - 1)) ^^^ mixer ^^^ c.runtime_entropy)
      let c := { c with entangle := Function.update c.entangle (fin8 i) en2 }
      let qs2 := quantum_noise (c.quantum_state (fin8 i) + c.quantum_state (fin8 (i - 1)) + (c.runtime_entropy : ℝ) / UD)
      { c with quantum_state := Function.update c.quantum_state (fin8 i) qs2 }
    else c
  let mixer := splitmix64 (mixer ^^^ measured ^^^ c.pool_mixer ^^^ c.runtime_entropy)
  (c, mixer, k)

/-- One outer mixing round of quantum_step (quantum_rng.c lines
198-233). -/
noncomputable def stepRound (env : Env) (st : QrngCtx × Nat × Nat)
    (roundv : Nat) : QrngCtx × Nat × Nat :=
  let c := st.1
  let mixer := hadamard_mix (st.2.1 ^^^ c.pool_mixer ^^^ c.runtime_entropy)
  (List.range 8).foldl (stepLane env roundv) (c, mixer, st.2.2)

/-- One iteration of the output buffer fill loop of quantum_step
(quantum_rng.c lines 236-252).  The folded state is (context, prev,
oracle index). -/
noncomputable def fillWord (env : Env) (st : QrngCtx × Nat × Nat)
    (i : Nat) : QrngCtx × Nat × Nat :=
  let c := st.1
  let prev := st.2.1
  let k := st.2.2
  let m := measure_state env k c (c.quantum_state (fin8 (i % 8))) (c.entangle (fin8 (i % 8)))
  let current := m.1
  let c := m.2.1
  let k := m.2.2
  let current := hadamard_mix (current ^^^ prev ^^^ c.pool_mixer ^^^ c.runtime_entropy)
  let current := current ^^^ mul64 QRNG_PAULI_X (current >>> 29)
  let current := mul64 current QRNG_HEISENBERG
  let current := current ^^^ mul64 QRNG_PAULI_Y (current >>> 31)
  let current := mul64 current QRNG_SCHRODINGER
  let c := { c with buffer := Function.update c.buffer (fin16 i) current }
  (c, current, k)

/-- The outer loop of quantum_step: QRNG_MIXING_ROUNDS = 4 rounds. -/
noncomputable def stepRounds (env : Env) (st : QrngCtx × Nat × Nat) : QrngCtx × Nat × Nat :=
  (List.range 4).foldl (stepRound env) st

/-- The output buffer fill loop of quantum_step: 16 words. -/
noncomputable def stepFill (env : Env) (st : QrngCtx × Nat × Nat) : QrngCtx × Nat × Nat :=
  (List.range 16).foldl (fillWord env) st

/-- The prologue and mixing rounds of quantum_step (quantum_rng.c lines
191-233): advance the counter, derive the initial mixer, refresh runtime
entropy and run the 4 mixing rounds. -/
noncomputable def stepRun (env : Env) (k : Nat) (c0 : QrngCtx) : QrngCtx × Nat × Nat :=
  let c := { c0 with counter := (c0.counter + 1) % U64 }
  let mixer := splitmix64 (mul64 c.counter QRNG_GOLDEN_RATIO)
  let re := get_runtime_entropy env k c
  let c := { c with runtime_entropy := re }
  stepRounds env (c, mixer, k + 1)

/-- The epilogue of quantum_step (quantum_rng.c line 253): reset
buffer_pos to 0 and return the context with the final oracle index. -/
def stepFinalize (st2 : QrngCtx × Nat × Nat) : QrngCtx × Nat :=
  ({ st2.1 with buffer_pos := 0 }, st2.2.2)

/-- quantum_step from quantum_rng.c lines 188-254: the prologue and
mixing rounds, then the buffer fill, then buffer_pos is reset to 0. -/
noncomputable def quantum_step (env : Env) (k : Nat) (c0 : QrngCtx) : QrngCtx × Nat :=
  stepFinalize (stepFill env (stepRun env k c0))

/-- A left fold preserves any property that every iteration preserves. -/
theorem foldl_preserves {σ α : Type _} (f : σ → α → σ) (P : σ → Prop)
    (h : ∀ s a, P s → P (f s a)) : ∀ (l : List α) (s : σ), P s → P (l.foldl f s) := by
  intro l
  induction l with
  | nil => intro s hs; exact hs
  | cons a t ih => intro s hs; exact ih _ (h s a hs)

/-- All entropy pool slots lie in the half-open unit interval. -/
def PoolOK (c : QrngCtx) : Prop := ∀ j : Fin 16, c.entropy_pool j ∈ Set.Ico (0 : ℝ) 1

/-- All quantum_state lane values lie in the half-open unit interval. -/
def LanesOK (c : QrngCtx) : Prop := ∀ i : Fin 8, c.quantum_state i ∈ Set.Ico (0 : ℝ) 1

/-- The noise map always lands in [0,1): its final operation subtracts
the floor of its argument. -/
theorem quantum_noise_mem_Ico (x : ℝ) : quantum_noise x ∈ Set.Ico (0 : ℝ) 1 := by
  unfold quantum_noise
  simp only [Int.self_sub_floor, Set.mem_Ico]
  exact ⟨Int.fract_nonneg _, Int.fract_lt_one _⟩

theorem measure_state_counter (env : Env) (k : Nat) (c : QrngCtx) (q : ℝ) (l : Nat) :
    ((measure_state env k c q l).2.1).counter = c.counter := rfl

theorem measure_state_buffer_pos (env : Env) (k : Nat) (c : QrngCtx) (q : ℝ) (l : Nat) :
    ((measure_state env k c q l).2.1).buffer_pos = c.buffer_pos := rfl

theorem measure_state_quantum_state (env : Env) (k : Nat) (c : QrngCtx) (q : ℝ) (l : Nat) :
    ((measure_state env k c q l).2.1).quantum_state = c.quantum_state := rfl

theorem measure_state_pool_ok (env : Env) (k : Nat) (c : QrngCtx) (q : ℝ) (l : Nat)
    (h : PoolOK c) : PoolOK ((measure_state env k c q l).2.1) := by
  intro j
  show Function.update c.entropy_pool (fin16 c.pool_index) _ j ∈ Set.Ico (0 : ℝ) 1
  rw [Function.update_apply]
  split
  · exact quantum_noise_mem_Ico _
  · exact h j

theorem stepLane_counter (env : Env) (r : Nat) (st : QrngCtx × Nat × Nat) (i : Nat) :
    (stepLane env r st i).1.counter = st.1.counter := by
  unfold stepLane
  split <;> rfl

theorem stepLane_buffer_pos (env : Env) (r : Nat) (st : QrngCtx × Nat × Nat) (i : Nat) :
    (stepLane env r st i).1.buffer_pos = st.1.buffer_pos := by
  unfold stepLane
  split <;> rfl

theorem measure_state_entropy_pool (env : Env) (k : Nat) (c : QrngCtx) (q : ℝ) (l : Nat) :
    (measure_state env k c q l).2.1.entropy_pool
      = Function.update c.entropy_pool (fin16 c.pool_index)
          (quantum_noise (c.entropy_pool (fin16 c.pool_index)
            + quantum_noise (q + ((get_runtime_entropy env k c : ℝ)) / UD)
            + (get_runtime_entropy env k c : ℝ) / UD)) := rfl

theorem stepLane_pool (env : Env) (r : Nat) (st : QrngCtx × Nat × Nat) (i : Nat)
    (hp : PoolOK st.1) : PoolOK (stepLane env r st i).1 := by
  unfold stepLane
  split
  · intro j
    simp only [measure_state_entropy_pool, Function.update_apply]
    split_ifs <;> first | exact quantum_noise_mem_Ico _ | exact hp j
  · intro j
    simp only [measure_state_entropy_pool, Function.update_apply]
    split_ifs <;> first | exact quantum_noise_mem_Ico _ | exact hp j

theorem stepLane_lanes (env : Env) (r : Nat) (st : QrngCtx × Nat × Nat) (i : Nat)
    (hl : LanesOK st.1) : LanesOK (stepLane env r st i).1 := by
  unfold stepLane
  split
  · intro j
    simp only [measure_state_quantum_state, Function.update_apply]
    split_ifs <;> first | exact quantum_noise_mem_Ico _ | exact hl j
  · intro j
    simp only [measure_state_quantum_state, Function.update_apply]
    split_ifs <;> first | exact quantum_noise_mem_Ico _ | exact hl j

theorem stepRound_counter (env : Env) (st : QrngCtx × Nat × Nat) (r : Nat) :
    (stepRound env st r).1.counter = st.1.counter := by
  unfold stepRound
  exact foldl_preserves (stepLane env r) (fun s => s.1.counter = st.1.counter)
    (fun s a h => by simp only [stepLane_counter]; exact h) _ _ rfl

theorem stepRound_inv (env : Env) (st : QrngCtx × Nat × Nat) (r : Nat)
    (h : PoolOK st.1 ∧ LanesOK st.1) :
    PoolOK (stepRound env st r).1 ∧ LanesOK (stepRound env st r).1 := by
  unfold stepRound
  exact foldl_preserves (stepLane env r) (fun s => PoolOK s.1 ∧ LanesOK s.1)
    (fun s a hs => ⟨stepLane_pool env r s a hs.1, stepLane_lanes env r s a hs.2⟩) _ _ h

theorem fillWord_counter (env : Env) (st : QrngCtx × Nat × Nat) (i : Nat) :
    (fillWord env st i).1.counter = st.1.counter := rfl

theorem fillWord_pool (env : Env) (st : QrngCtx × Nat × Nat) (i : Nat)
    (hp : PoolOK st.1) : PoolOK (fillWord env st i).1 := by
  intro j
  simp only [fillWord, measure_state_entropy_pool, Function.update_apply]
  split_ifs <;> first | exact quantum_noise_mem_Ico _ | exact hp j

theorem fillWord_lanes (env : Env) (st : QrngCtx × Nat × Nat) (i : Nat)
    (hl : LanesOK st.1) : LanesOK (fillWord env st i).1 := hl

theorem stepRounds_counter (env : Env) (s : QrngCtx × Nat × Nat) :
    (stepRounds env s).1.counter = s.1.counter := by
  unfold stepRounds
  exact foldl_preserves (stepRound env) (fun t => t.1.counter = s.1.counter)
    (fun t a h => by simp only [stepRound_counter]; exact h) _ _ rfl

theorem stepRounds_inv (env : Env) (s : QrngCtx × Nat × Nat)
    (h : PoolOK s.1 ∧ LanesOK s.1) :
    PoolOK (stepRounds env s).1 ∧ LanesOK (stepRounds env s).1 := by
  unfold stepRounds
  exact foldl_preserves (stepRound env) (fun t => PoolOK t.1 ∧ LanesOK t.1)
    (fun t a ht => stepRound_inv env t a ht) _ _ h

theorem stepFill_counter (env : Env) (s : QrngCtx × Nat × Nat) :
    (stepFill env s).1.counter = s.1.counter := by
  unfold stepFill
  exact foldl_preserves (fillWord env) (fun t => t.1.counter = s.1.counter)
    (fun t a h => by simp only [fillWord_counter]; exact h) _ _ rfl

theorem stepFill_inv (env : Env) (s : QrngCtx × Nat × Nat)
    (h : PoolOK s.1 ∧ LanesOK s.1) :
    PoolOK (stepFill env s).1 ∧ LanesOK (stepFill env s).1 := by
  unfold stepFill
  exact foldl_preserves (fillWord env) (fun t => PoolOK t.1 ∧ LanesOK t.1)
    (fun t a ht => ⟨fillWord_pool env t a ht.1, fillWord_lanes env t a ht.2⟩) _ _ h

theorem stepRun_counter (env : Env) (k : Nat) (c0 : QrngCtx) :
    (stepRun env k c0).1.counter = (c0.counter + 1) % U64 := by
  unfold stepRun
  rw [stepRounds_counter]

theorem stepRun_inv (env : Env) (k : Nat) (c0 : QrngCtx)
    (hp : PoolOK c0) (hl : LanesOK c0) :
    PoolOK (stepRun env k c0).1 ∧ LanesOK (stepRun env k c0).1 := by
  unfold stepRun
  exact stepRounds_inv env _ ⟨hp, hl⟩

theorem quantum_step_buffer_pos (env : Env) (k : Nat) (c0 : QrngCtx) :
    (quantum_step env k c0).1.buffer_pos = 0 := rfl

theorem quantum_step_eq (env : Env) (k : Nat) (c0 : QrngCtx) :
    quantum_step env k c0 = stepFinalize (stepFill env (stepRun env k c0)) := rfl

theorem stepFinalize_counter (st2 : QrngCtx × Nat × Nat) :
    (stepFinalize st2).1.counter = st2.1.counter := rfl

theorem stepFinalize_entropy_pool (st2 : QrngCtx × Nat × Nat) :
    (stepFinalize st2).1.entropy_pool = st2.1.entropy_pool := rfl

theorem stepFinalize_quantum_state (st2 : QrngCtx × Nat × Nat) :
    (stepFinalize st2).1.quantum_state = st2.1.quantum_state := rfl

theorem quantum_step_counter (env : Env) (k : Nat) (c0 : QrngCtx) :
    (quantum_step env k c0).1.counter = (c0.counter + 1) % U64 := by
  rw [quantum_step_eq, stepFinalize_counter, stepFill_counter, stepRun_counter]

theorem quantum_step_inv (env : Env) (k : Nat) (c0 : QrngCtx)
    (hp : PoolOK c0) (hl : LanesOK c0) :
    PoolOK (quantum_step env k c0).1 ∧ LanesOK (quantum_step env k c0).1 := by
  have h := stepFill_inv env (stepRun env k c0) (stepRun_inv env k c0 hp hl)
  refine ⟨fun j => ?_, fun j => ?_⟩
  · rw [quantum_step_eq]
    show (stepFinalize (stepFill env (stepRun env k c0))).1.entropy_pool j ∈ Set.Ico (0 : ℝ) 1
    rw [stepFinalize_entropy_pool]
    exact h.1 j
  · rw [quantum_step_eq]
    show (stepFinalize (stepFill env (stepRun env k c0))).1.quantum_state j ∈ Set.Ico (0 : ℝ) 1
    rw [stepFinalize_quantum_state]
    exact h.2 j

/-- The zeroed context produced by the calloc of qrng_init line 261. -/
def zeroCtx : QrngCtx where
  phase := fun _ => 0
  entangle := fun _ => 0
  quantum_state := fun _ => 0
  last_measurement := fun _ => 0
  buffer := fun _ => 0
  buffer_pos := 0
  counter := 0
  entropy_pool := fun _ => 0
  pool_mixer := 0
  pool_index := 0
  init_sec := 0
  init_usec := 0
  pid := 0
  unique_id := 0
  system_entropy := 0
  runtime_entropy := 0

/-- The seed byte folded into the mixer update of qrng_init line 286:
the C expression is seed ? seed[i % seed_len] : 0.  The value `none`
records the division by zero that the expression performs when a
non-null seed pointer is combined with seed_len == 0 (an argument pair
that the guards of qrng_init accept). -/
def seedByteMix (seed : Option (List Nat)) (len i : Nat) : Option Nat :=
  match seed with
  | none => some 0
  | some s => if len = 0 then none else some (s.getD (i % len) 0)

/-- The seed-or-index selector of qrng_init lines 290 and 306: the C
expression is seed ? seed[i % seed_len] : i, with the same division by
zero when a non-null seed has seed_len == 0. -/
def seedByteOrIdx (seed : Option (List Nat)) (len i : Nat) : Option Nat :=
  match seed with
  | none => some i
  | some s => if len = 0 then none else some (s.getD (i % len) 0)

/-- The reversed-seed selector of qrng_init line 303: the C expression
is seed ? seed[(seed_len - 1 - i) % seed_len] : i.  The inner
subtraction is size_t arithmetic, so it wraps modulo 2^64 when
i > seed_len - 1. -/
def seedByteRev (seed : Option (List Nat)) (len i : Nat) : Option Nat :=
  match seed with
  | none => some i
  | some s => if len = 0 then none
      else some (s.getD (((len + U64 - 1 - i) % U64) % len) 0)

/-- One iteration of the entropy pool initialization loop of qrng_init
lines 273-280. -/
noncomputable def initPoolSlot (c : QrngCtx) (i : Nat) : QrngCtx :=
  let v := quantum_noise (((c.system_entropy >>> i : Nat) : ℝ) / UD
    + ((c.init_usec >>> (i % 20) : Nat) : ℝ) / UD
    + ((c.pid <<< (i % 16) : Nat) : ℝ) / UD
    + (c.runtime_entropy : ℝ) / UD)
  { c with entropy_pool := Function.update c.entropy_pool (fin16 i) v }

/-- The entropy pool initialization loop of qrng_init lines 273-280. -/
noncomputable def initPool (c0 : QrngCtx) : QrngCtx :=
  (List.range 16).foldl initPoolSlot c0

/-- The context produced by qrng_init lines 261-270: calloc, the host
identifier snapshots, the derived unique id and pool mixer, and the
first runtime entropy refresh (which consumes clock word 0). -/
def initBase (env : Env) : QrngCtx :=
  let c := zeroCtx
  let c := { c with init_sec := env.it_sec, init_usec := env.it_usec, pid := env.pid }
  let c := { c with system_entropy := get_system_entropy env }
  let c := { c with unique_id := splitmix64 c.system_entropy }
  let c := { c with pool_mixer := QRNG_HEISENBERG ^^^ c.unique_id }
  { c with runtime_entropy := get_runtime_entropy env 0 c }

/-- The context of qrng_init just before the per-lane loop: the base
snapshot with the entropy pool filled (lines 261-280). -/
noncomputable def initPrep (env : Env) : QrngCtx :=
  initPool (initBase env)

/-- One iteration of the per-lane seed application loop of qrng_init
lines 284-308.  The out-of-range reads of the UB case seed_len == 0
with a non-null seed are modelled by `Option.getD _ 0`; theorems about
qrng_init carry the hypothesis that excludes that case. -/
noncomputable def initLane (env : Env) (seed : Option (List Nat)) (len : Nat)
    (st : QrngCtx × Nat × Nat) (i : Nat) : QrngCtx × Nat × Nat :=
  let c := st.1
  let k := st.2.2
  let mixer := splitmix64 (st.2.1 ^^^ (seedByteMix seed len i).getD 0 ^^^ c.runtime_entropy)
  let ph := hadamard_gate ((seedByteOrIdx seed len i).getD 0 ^^^ mixer ^^^ c.unique_id ^^^ c.runtime_entropy)
  let c := { c with phase := Function.update c.phase (fin8 i) ph }
  let qs := quantum_noise (((c.phase (fin8 i) ^^^ c.system_entropy : Nat) : ℝ) / UD
    + c.entropy_pool (fin16 (i % 16)) + (c.runtime_entropy : ℝ) / UD)
  let c := { c with quantum_state := Function.update c.quantum_state (fin8 i) qs }
  let m := measure_state env k c (c.quantum_state (fin8 i)) ((seedByteRev seed len i).getD 0)
  let c := m.2.1
  let k := m.2.2
  let c := { c with last_measurement := Function.update c.last_measurement (fin8 i) m.1 }
  let en := phase_gate (c.last_measurement (fin8 i))
    ((seedByteOrIdx seed len i).getD 0 ^^^ mixer ^^^ c.runtime_entropy)
  let c := { c with entangle := Function.update c.entangle (fin8 i) en }
  (c, mixer, k)

/-- The per-lane seed application loop of qrng_init (8 lanes). -/
noncomputable def initLanes (env : Env) (seed : Option (List Nat)) (len : Nat)
    (st : QrngCtx × Nat × Nat) : QrngCtx × Nat × Nat :=
  (List.range 8).foldl (initLane env seed len) st

/-- One warm-up iteration: a quantum_step threaded through the
(context, oracle index) pair. -/
noncomputable def warmStep (env : Env) (q : QrngCtx × Nat) : QrngCtx × Nat :=
  quantum_step env q.2 q.1

/-- The warm-up loop shared by qrng_init line 311 and qrng_reseed line
348: QRNG_MIXING_ROUNDS * 2 = 8 executions of quantum_step. -/
noncomputable def warmup (env : Env) (p : QrngCtx × Nat) : QrngCtx × Nat :=
  (List.range 8).foldl (fun q _ => warmStep env q) p

/-- The successful path of qrng_init (quantum_rng.c lines 261-315):
base snapshot, pool fill, per-lane seed application with the initial
mixer GOLDEN_RATIO XOR system_entropy, then the 8-step warm-up.
Returns the context and the next oracle index. -/
noncomputable def initCtx (env : Env) (seed : Option (List Nat)) (len : Nat) : QrngCtx × Nat :=
  let c := initPrep env
  let st := initLanes env seed len (c, QRNG_GOLDEN_RATIO ^^^ c.system_entropy, 1)
  warmup env (st.1, st.2.2)

/-- qrng_init from quantum_rng.c lines 257-316.  `ctxp` records whether
the out-parameter was supplied; allocation is assumed to succeed. -/
noncomputable def qrng_init (env : Env) (ctxp : Bool) (seed : Option (List Nat))
    (len : Nat) : Int × Option QrngCtx × Nat :=
  if ¬ctxp then (-1, none, 0)
  else if seed.isNone ∧ 0 < len then (-2, none, 0)
  else (0, some (initCtx env seed len).1, (initCtx env seed len).2)

/-- One iteration of the reseed loop of qrng_reseed lines 334-346. -/
noncomputable def reseedLane (env : Env) (s : List Nat) (len : Nat)
    (st : QrngCtx × Nat × Nat) (i : Nat) : QrngCtx × Nat × Nat :=
  let c := st.1
  let k := st.2.2
  let mixer := splitmix64 (st.2.1 ^^^ s.getD i 0 ^^^ c.runtime_entropy)
  let ph := hadamard_gate (c.phase (fin8 i) ^^^ s.getD i 0 ^^^ mixer ^^^ c.runtime_entropy)
  let c := { c with phase := Function.update c.phase (fin8 i) ph }
  let qs := quantum_noise ((c.phase (fin8 i) : ℝ) / UD + (c.runtime_entropy : ℝ) / UD)
  let c := { c with quantum_state := Function.update c.quantum_state (fin8 i) qs }
  let m := measure_state env k c (c.quantum_state (fin8 i)) (s.getD (len - 1 - i) 0 ^^^ mixer)
  let c := m.2.1
  let k := m.2.2
  let c := { c with last_measurement := Function.update c.last_measurement (fin8 i) m.1 }
  let en := phase_gate (c.last_measurement (fin8 i)) (s.getD i 0 ^^^ mixer ^^^ c.runtime_entropy)
  let c := { c with entangle := Function.update c.entangle (fin8 i) en }
  (c, mixer, k)

/-- The successful path of qrng_reseed (quantum_rng.c lines 330-352):
runtime entropy refresh, the seed loop over min(seed_len, 8) lanes with
initial mixer GOLDEN_RATIO XOR runtime_entropy, then the 8-step
warm-up. -/
noncomputable def reseedCore (env : Env) (k : Nat) (c0 : QrngCtx)
    (s : List Nat) (len : Nat) : QrngCtx × Nat :=
  let re := get_runtime_entropy env k c0
  let c := { c0 with runtime_entropy := re }
  let st := (List.range (min len 8)).foldl (reseedLane env s len)
    (c, QRNG_GOLDEN_RATIO ^^^ re, k + 1)
  warmup env (st.1, st.2.2)

/-- qrng_reseed from quantum_rng.c lines 325-353. -/
noncomputable def qrng_reseed (env : Env) (k : Nat) (ctx : Option QrngCtx)
    (seed : Option (List Nat)) (len : Nat) : Int × Option QrngCtx × Nat :=
  match ctx with
  | none => (-1, none, k)
  | some c =>
    if seed.isNone ∧ 0 < len then (-2, some c, k)
    else if len = 0 then (-3, some c, k)
    else (0, some (reseedCore env k c (seed.getD []) len).1, (reseedCore env k c (seed.getD []) len).2)

theorem initPoolSlot_counter (c : QrngCtx) (i : Nat) : (initPoolSlot c i).counter = c.counter := rfl

theorem initPool_counter (c : QrngCtx) : (initPool c).counter = c.counter := by
  unfold initPool
  exact foldl_preserves initPoolSlot (fun d => d.counter = c.counter)
    (fun d a h => by simp only [initPoolSlot_counter]; exact h) _ _ rfl

theorem initBase_counter (env : Env) : (initBase env).counter = 0 := rfl

theorem initPrep_counter (env : Env) : (initPrep env).counter = 0 := by
  unfold initPrep
  rw [initPool_counter, initBase_counter]

theorem initLane_counter (env : Env) (seed : Option (List Nat)) (len : Nat)
    (st : QrngCtx × Nat × Nat) (i : Nat) : (initLane env seed len st i).1.counter = st.1.counter := rfl

theorem initLanes_counter (env : Env) (seed : Option (List Nat)) (len : Nat)
    (st : QrngCtx × Nat × Nat) : (initLanes env seed len st).1.counter = st.1.counter := by
  unfold initLanes
  exact foldl_preserves (initLane env seed len) (fun t => t.1.counter = st.1.counter)
    (fun t a h => by simp only [initLane_counter]; exact h) _ _ rfl

theorem warmStep_counter (env : Env) (q : QrngCtx × Nat) :
    (warmStep env q).1.counter = (q.1.counter + 1) % U64 := quantum_step_counter env q.2 q.1

theorem warmStep_buffer_pos (env : Env) (q : QrngCtx × Nat) :
    (warmStep env q).1.buffer_pos = 0 := quantum_step_buffer_pos env q.2 q.1

theorem range_eight : List.range 8 = [0, 1, 2, 3, 4, 5, 6, 7] := by decide

theorem warmup_counter (env : Env) (p : QrngCtx × Nat) :
    (warmup env p).1.counter = (p.1.counter + 8) % U64 := by
  unfold warmup
  rw [range_eight]
  simp only [List.foldl_cons, List.foldl_nil, warmStep_counter, U64]
  omega

theorem warmup_buffer_pos (env : Env) (p : QrngCtx × Nat) :
    (warmup env p).1.buffer_pos = 0 := by
  unfold warmup
  rw [range_eight]
  simp only [List.foldl_cons, List.foldl_nil, warmStep_buffer_pos]

theorem warmup_inv (env : Env) (p : QrngCtx × Nat) (h : PoolOK p.1 ∧ LanesOK p.1) :
    PoolOK (warmup env p).1 ∧ LanesOK (warmup env p).1 := by
  unfold warmup
  exact foldl_preserves (fun q _ => warmStep env q) (fun q => PoolOK q.1 ∧ LanesOK q.1)
    (fun q a hq => quantum_step_inv env q.2 q.1 hq.1 hq.2) _ _ h

theorem initCtx_counter (env : Env) (seed : Option (List Nat)) (len : Nat) :
    (initCtx env seed len).1.counter = 8 := by
  unfold initCtx
  rw [warmup_counter]
  show ((initLanes env seed len
    (initPrep env, QRNG_GOLDEN_RATIO ^^^ (initPrep env).system_entropy, 1)).1.counter + 8) % U64 = 8
  rw [initLanes_counter]
  show ((initPrep env).counter + 8) % U64 = 8
  rw [initPrep_counter]
  decide

theorem initCtx_buffer_pos (env : Env) (seed : Option (List Nat)) (len : Nat) :
    (initCtx env seed len).1.buffer_pos = 0 := by
  unfold initCtx
  rw [warmup_buffer_pos]

theorem initBase_inv (env : Env) : PoolOK (initBase env) ∧ LanesOK (initBase env) := by
  constructor
  · intro j
    show (0 : ℝ) ∈ Set.Ico (0 : ℝ) 1
    constructor <;> norm_num
  · intro j
    show (0 : ℝ) ∈ Set.Ico (0 : ℝ) 1
    constructor <;> norm_num

theorem initPoolSlot_inv (c : QrngCtx) (i : Nat) (h : PoolOK c ∧ LanesOK c) :
    PoolOK (initPoolSlot c i) ∧ LanesOK (initPoolSlot c i) := by
  constructor
  · intro j
    show Function.update c.entropy_pool (fin16 i) _ j ∈ Set.Ico (0 : ℝ) 1
    rw [Function.update_apply]
    split
    · exact quantum_noise_mem_Ico _
    · exact h.1 j
  · exact h.2

theorem initPrep_inv (env : Env) : PoolOK (initPrep env) ∧ LanesOK (initPrep env) := by
  unfold initPrep initPool
  exact foldl_preserves initPoolSlot (fun d => PoolOK d ∧ LanesOK d)
    (fun d a hd => initPoolSlot_inv d a hd) _ _ (initBase_inv env)

theorem initLane_pool (env : Env) (seed : Option (List Nat)) (len : Nat)
    (st : QrngCtx × Nat × Nat) (i : Nat) (hp : PoolOK st.1) :
    PoolOK (initLane env seed len st i).1 := by
  intro j
  simp only [initLane, measure_state_entropy_pool, Function.update_apply]
  split_ifs <;> first | exact quantum_noise_mem_Ico _ | exact hp j

theorem initLane_lanes (env : Env) (seed : Option (List Nat)) (len : Nat)
    (st : QrngCtx × Nat × Nat) (i : Nat) (hl : LanesOK st.1) :
    LanesOK (initLane env seed len st i).1 := by
  intro j
  simp only [initLane, measure_state_quantum_state, Function.update_apply]
  split_ifs <;> first | exact quantum_noise_mem_Ico _ | exact hl j

theorem initLanes_inv (env : Env) (seed : Option (List Nat)) (len : Nat)
    (st : QrngCtx × Nat × Nat) (h : PoolOK st.1 ∧ LanesOK st.1) :
    PoolOK (initLanes env seed len st).1 ∧ LanesOK (initLanes env seed len st).1 := by
  unfold initLanes
  exact foldl_preserves (initLane env seed len) (fun t => PoolOK t.1 ∧ LanesOK t.1)
    (fun t a ht => ⟨initLane_pool env seed len t a ht.1, initLane_lanes env seed len t a ht.2⟩)
    _ _ h

theorem initCtx_inv (env : Env) (seed : Option (List Nat)) (len : Nat) :
    PoolOK (initCtx env seed len).1 ∧ LanesOK (initCtx env seed len).1 := by
  unfold initCtx
  exact warmup_inv env _ (initLanes_inv env seed len _ (initPrep_inv env))

theorem reseedLane_counter (env : Env) (s : List Nat) (len : Nat)
    (st : QrngCtx × Nat × Nat) (i : Nat) :
    (reseedLane env s len st i).1.counter = st.1.counter := rfl

theorem reseedCore_counter (env : Env) (k : Nat) (c0 : QrngCtx) (s : List Nat) (len : Nat) :
    (reseedCore env k c0 s len).1.counter = (c0.counter + 8) % U64 := by
  unfold reseedCore
  rw [warmup_counter]
  have h := foldl_preserves (reseedLane env s len) (fun t => t.1.counter = c0.counter)
    (fun t a ht => by simp only [reseedLane_counter]; exact ht)
    (List.range (min len 8))
    ({ c0 with runtime_entropy := get_runtime_entropy env k c0 },
      QRNG_GOLDEN_RATIO ^^^ get_runtime_entropy env k c0, k + 1) rfl
  rw [h]

/-- The conditional refill at the top of each qrng_bytes loop iteration
(quantum_rng.c lines 361-363). -/
noncomputable def refill (env : Env) (k : Nat) (c : QrngCtx) : QrngCtx × Nat :=
  if 128 ≤ c.buffer_pos then quantum_step env k c else (c, k)

theorem refill_pos_lt (env : Env) (k : Nat) (c : QrngCtx) :
    (refill env k c).1.buffer_pos < 128 := by
  unfold refill
  split
  · rw [quantum_step_buffer_pos]; norm_num
  · show c.buffer_pos < 128
    omega

theorem refill_of_lt (env : Env) (k : Nat) (c : QrngCtx) (h : c.buffer_pos < 128) :
    refill env k c = (c, k) := by
  unfold refill
  rw [if_neg (by omega)]

theorem refill_of_ge (env : Env) (k : Nat) (c : QrngCtx) (h : 128 ≤ c.buffer_pos) :
    refill env k c = quantum_step env k c := by
  unfold refill
  rw [if_pos h]

/-- The number of quantum_step executions a single qrng_bytes loop
iteration performs on entry state c: one exactly when the refill
condition buffer_pos >= 128 holds. -/
def stepsTaken (c : QrngCtx) : Nat := if 128 ≤ c.buffer_pos then 1 else 0

/-- The while loop of qrng_bytes (quantum_rng.c lines 360-372).  Besides
the final context and oracle index it returns the bytes written to the
output buffer and, as instrumentation, the number of quantum_step
executions the loop performed. -/
noncomputable def bytesLoop (env : Env) (len : Nat) (c : QrngCtx) (k : Nat) :
    QrngCtx × Nat × List Nat × Nat :=
  if h0 : len = 0 then (c, k, [], 0)
  else
    let R := refill env k c
    let copy_len := min (128 - R.1.buffer_pos) len
    let chunk := (List.range copy_len).map (fun j => bufByte R.1 (R.1.buffer_pos + j))
    let c2 := { R.1 with buffer_pos := R.1.buffer_pos + copy_len }
    let t := bytesLoop env (len - copy_len) c2 R.2
    (t.1, t.2.1, chunk ++ t.2.2.1, stepsTaken c + t.2.2.2)
termination_by len
decreasing_by
  have h1 := refill_pos_lt env k c
  omega

/-- qrng_bytes from quantum_rng.c lines 355-375.  Returns the error
code, the updated context, the advanced oracle index, the bytes written
and the number of steps performed. -/
noncomputable def qrng_bytes (env : Env) (k : Nat) (ctx : Option QrngCtx)
    (outPresent : Bool) (len : Nat) : Int × Option QrngCtx × Nat × List Nat × Nat :=
  match ctx with
  | none => (-1, none, k, [], 0)
  | some c =>
    if ¬outPresent then (-2, some c, k, [], 0)
    else if len = 0 then (-3, some c, k, [], 0)
    else
      let t := bytesLoop env len c k
      (0, some t.1, t.2.1, t.2.2.1, t.2.2.2)

/-- Little-endian reassembly of the 8 bytes that qrng_bytes writes into
the uint64_t result variable of qrng_uint64 (line 381). -/
def leWord (bs : List Nat) : Nat :=
  (List.range 8).foldl (fun acc i => acc + (bs.getD i 0) <<< (8 * i)) 0

/-- The output post-mix of qrng_uint64 (quantum_rng.c lines 385-390). -/
def uint64_postmix (r0 re : Nat) : Nat :=
  let r := splitmix64 (r0 ^^^ re)
  let r := r ^^^ mul64 QRNG_PAULI_X (r >>> 27)
  let r := mul64 r QRNG_HEISENBERG
  let r := r ^^^ mul64 QRNG_PAULI_Y (r >>> 31)
  let r := mul64 r QRNG_SCHRODINGER
  r ^^^ mul64 QRNG_PAULI_Z (r >>> 29)

/-- The non-null path of qrng_uint64 (quantum_rng.c lines 380-392):
fetch 8 bytes through the bulk byte path, refresh runtime entropy and
post-mix. -/
noncomputable def qrng_uint64_core (env : Env) (k : Nat) (c : QrngCtx) : Nat × QrngCtx × Nat :=
  let b := bytesLoop env 8 c k
  let re := get_runtime_entropy env b.2.1 b.1
  (uint64_postmix (leWord b.2.2.1) re, { b.1 with runtime_entropy := re }, b.2.1 + 1)

/-- qrng_uint64 from quantum_rng.c lines 377-393; a null context
returns 0. -/
noncomputable def qrng_uint64 (env : Env) (k : Nat) (ctx : Option QrngCtx) :
    Nat × Option QrngCtx × Nat :=
  match ctx with
  | none => (0, none, k)
  | some c =>
    ((qrng_uint64_core env k c).1, some (qrng_uint64_core env k c).2.1,
      (qrng_uint64_core env k c).2.2)

/-- qrng_double from quantum_rng.c lines 395-398; a null context
returns 0.0. -/
noncomputable def qrng_double (env : Env) (k : Nat) (ctx : Option QrngCtx) :
    ℝ × Option QrngCtx × Nat :=
  match ctx with
  | none => (0, none, k)
  | some c =>
    (((qrng_uint64_core env k c).1 >>> 11 : Nat) * ((1 : ℝ) / 9007199254740992),
      some (qrng_uint64_core env k c).2.1, (qrng_uint64_core env k c).2.2)

/-- The rejection loop of qrng_range64 (quantum_rng.c lines 437-439),
with explicit fuel: `none` means the fuel ran out before a draw reached
the threshold. -/
noncomputable def range64_loop (env : Env) (threshold range minv : Nat) :
    Nat → QrngCtx → Nat → Option (Nat × QrngCtx × Nat)
  | 0, _, _ => none
  | fuel + 1, c, k =>
    let u := qrng_uint64_core env k c
    if u.1 < threshold then range64_loop env threshold range minv fuel u.2.1 u.2.2
    else some ((minv + u.1 % range) % U64, u.2.1, u.2.2)

/-- qrng_range64 from quantum_rng.c lines 420-442. -/
noncomputable def qrng_range64 (env : Env) (k : Nat) (ctx : Option QrngCtx)
    (minv maxv : Nat) (fuel : Nat) : Option (Nat × Option QrngCtx × Nat) :=
  match ctx with
  | none => some (maxv, none, k)
  | some c =>
    if maxv < minv then some (maxv, some c, k)
    else if minv = maxv then some (minv, some c, k)
    else
      let range := (maxv - minv + 1) % U64
      if range = 0 then some (maxv, some c, k)
      else
        let threshold := ((U64 - range) % U64) % range
        match range64_loop env threshold range minv fuel c k with
        | none => none
        | some (r, c1, k1) => some (r, some c1, k1)

/-- The C cast (uint32_t)m of a signed 32-bit value: reduce modulo
2^32. -/
def toU32 (m : Int) : Nat := (m % (U32 : Int)).toNat

/-- The C conversion of an unsigned 32-bit value to int32_t, with the
usual wrap-around representation choice. -/
def toI32 (n : Nat) : Int :=
  if n % U32 < 2147483648 then ((n % U32 : Nat) : Int)
  else ((n % U32 : Nat) : Int) - (U32 : Int)

/-- The rejection loop of qrng_range32 (quantum_rng.c lines 413-415):
each draw is the low 32 bits of qrng_uint64, and the accepted draw is
folded into min + (r % range) under the C usual arithmetic
conversions. -/
noncomputable def range32_loop (env : Env) (threshold range : Nat) (minv : Int) :
    Nat → QrngCtx → Nat → Option (Int × QrngCtx × Nat)
  | 0, _, _ => none
  | fuel + 1, c, k =>
    let u := qrng_uint64_core env k c
    let r := u.1 % U32
    if r < threshold then range32_loop env threshold range minv fuel u.2.1 u.2.2
    else some (toI32 (toU32 minv + r % range), u.2.1, u.2.2)

/-- qrng_range32 from quantum_rng.c lines 400-418.  The C expression
(uint32_t)(max - min + 1) is modelled as the mathematical difference
reduced modulo 2^32 (the wrap-around behaviour every mainstream
compiler gives this line; the intermediate signed overflow is noted as
an open question in the specification). -/
noncomputable def qrng_range32 (env : Env) (k : Nat) (ctx : Option QrngCtx)
    (minv maxv : Int) (fuel : Nat) : Option (Int × Option QrngCtx × Nat) :=
  match ctx with
  | none => some (maxv, none, k)
  | some c =>
    if maxv < minv then some (maxv, some c, k)
    else
      let range := ((maxv - minv + 1) % (U32 : Int)).toNat
      if range = 0 then some (maxv, some c, k)
      else
        let threshold := ((U32 - range) % U32) % range
        match range32_loop env threshold range minv fuel c k with
        | none => none
        | some (r, c1, k1) => some (r, some c1, k1)

/-- One iteration of the entanglement loop of qrng_entangle_states
(quantum_rng.c lines 471-485); the folded state carries the two output
byte lists and the mixer.  runtime_entropy is constant across the loop
because nothing inside refreshes it. -/
noncomputable def entanglePair (counterv re : Nat)
    (st : (List Nat × List Nat) × Nat) (ab : Nat × Nat) : (List Nat × List Nat) × Nat :=
  let mixer := st.2
  let s1 := hadamard_gate (ab.1 ^^^ mixer ^^^ re)
  let s2 := hadamard_gate (ab.2 ^^^ mixer ^^^ re)
  let ph := phase_gate (s1 ^^^ s2) (counterv ^^^ mixer ^^^ re)
  ((st.1.1 ++ [(s1 ^^^ ph) % 256], st.1.2 ++ [(s2 ^^^ ph) % 256]),
    splitmix64 (mixer ^^^ s1 ^^^ s2 ^^^ re))

/-- The context updates of qrng_entangle_states (lines 466 and
488-493): the runtime entropy refresh and the final perturbation of
every quantum_state lane.  The byte loop does not touch the context, so
the resulting context does not depend on the buffers. -/
noncomputable def entangleCtx (env : Env) (k : Nat) (c : QrngCtx) : QrngCtx :=
  let re := get_runtime_entropy env k c
  let c1 := { c with runtime_entropy := re }
  { c1 with quantum_state := fun i => quantum_noise (c1.quantum_state i + (re : ℝ) / UD) }

/-- qrng_entangle_states from quantum_rng.c lines 460-496.  The two
caller buffers are lists; the transform rewrites their first len bytes
and leaves the rest, and afterwards perturbs every quantum_state lane
(lines 488-493). -/
noncomputable def qrng_entangle_states (env : Env) (k : Nat) (ctx : Option QrngCtx)
    (st1 st2 : Option (List Nat)) (len : Nat) :
    Int × Option QrngCtx × Option (List Nat) × Option (List Nat) × Nat :=
  match ctx with
  | none => (-1, none, st1, st2, k)
  | some c =>
    if st1.isNone ∨ st2.isNone then (-2, some c, st1, st2, k)
    else if len = 0 then (-3, some c, st1, st2, k)
    else
      let re := get_runtime_entropy env k c
      let c1 := { c with runtime_entropy := re }
      let mixer := splitmix64 (mul64 c1.counter QRNG_GOLDEN_RATIO)
      let a := (st1.getD []).take len
      let b := (st2.getD []).take len
      let r := (a.zip b).foldl (entanglePair c1.counter re) (([], []), mixer)
      (0, some (entangleCtx env k c), some (r.1.1 ++ (st1.getD []).drop len),
        some (r.1.2 ++ (st2.getD []).drop len), k + 1)

/-- One iteration of the byte measurement loop of qrng_measure_state
(quantum_rng.c lines 509-524); the folded state carries the output
bytes, the context, the mixer and the oracle index. -/
noncomputable def measureByte (env : Env) (st : List Nat × QrngCtx × Nat × Nat)
    (byte : Nat) : List Nat × QrngCtx × Nat × Nat :=
  let c := st.2.1
  let mixer := st.2.2.1
  let k := st.2.2.2
  let q := quantum_noise ((byte : ℝ) / 255 + (c.runtime_entropy : ℝ) / UD)
  let m := measure_state env k c q mixer
  (st.1 ++ [m.1 % 256], m.2.1, splitmix64 (mixer ^^^ m.1 ^^^ m.2.1.runtime_entropy), m.2.2)

/-- One iteration of the final lane refresh of qrng_measure_state
(quantum_rng.c lines 527-531). -/
noncomputable def measureFinalLane (env : Env) (st : QrngCtx × Nat) (i : Nat) : QrngCtx × Nat :=
  let m := measure_state env st.2 st.1 (st.1.quantum_state (fin8 i)) (st.1.last_measurement (fin8 i))
  ({ m.2.1 with last_measurement := Function.update m.2.1.last_measurement (fin8 i) m.1 }, m.2.2)

/-- The successful path of qrng_measure_state (lines 503-531): refresh
runtime entropy, run the byte measurement loop over the given bytes,
then the final lane refresh.  Returns the transformed bytes, the final
context and the next oracle index. -/
noncomputable def measureCore (env : Env) (k : Nat) (c : QrngCtx) (bytes : List Nat) :
    List Nat × QrngCtx × Nat :=
  let re := get_runtime_entropy env k c
  let c1 := { c with runtime_entropy := re }
  let mixer := splitmix64 (mul64 c1.counter QRNG_GOLDEN_RATIO)
  let r := bytes.foldl (measureByte env) ([], c1, mixer, k + 1)
  let fin2 := (List.range 8).foldl (measureFinalLane env) (r.2.1, r.2.2.2)
  (r.1, fin2.1, fin2.2)

/-- qrng_measure_state from quantum_rng.c lines 498-534: the public
buffer transform (distinct from the static helper measure_state). -/
noncomputable def qrng_measure_state (env : Env) (k : Nat) (ctx : Option QrngCtx)
    (state : Option (List Nat)) (len : Nat) :
    Int × Option QrngCtx × Option (List Nat) × Nat :=
  match ctx with
  | none => (-1, none, state, k)
  | some c =>
    if state.isNone then (-2, some c, state, k)
    else if len = 0 then (-3, some c, state, k)
    else
      let r := measureCore env k c ((state.getD []).take len)
      (0, some r.2.1, some (r.1 ++ (state.getD []).drop len), r.2.2)

theorem bytesLoop_zero (env : Env) (c : QrngCtx) (k : Nat) :
    bytesLoop env 0 c k = (c, k, [], 0) := by
  rw [bytesLoop]
  rfl

theorem bytesLoop_length (env : Env) : ∀ (len : Nat) (c : QrngCtx) (k : Nat),
    (bytesLoop env len c k).2.2.1.length = len := by
  intro len
  induction len using Nat.strong_induction_on with
  | _ len ih =>
    intro c k
    by_cases h0 : len = 0
    · subst h0; rw [bytesLoop_zero]; rfl
    · rw [bytesLoop, dif_neg h0]
      have hpos := refill_pos_lt env k c
      simp only [List.length_append, List.length_map, List.length_range]
      rw [ih _ (by omega)]
      omega

theorem bytesLoop_pos_le (env : Env) : ∀ (len : Nat) (c : QrngCtx) (k : Nat), 0 < len →
    (bytesLoop env len c k).1.buffer_pos ≤ 128 := by
  intro len
  induction len using Nat.strong_induction_on with
  | _ len ih =>
    intro c k hlen
    rw [bytesLoop, dif_neg (by omega)]
    have hpos := refill_pos_lt env k c
    rcases Nat.eq_zero_or_pos (len - min (128 - (refill env k c).1.buffer_pos) len) with hz | hz
    · show (bytesLoop env (len - min (128 - (refill env k c).1.buffer_pos) len) _ _).1.buffer_pos ≤ 128
      rw [hz, bytesLoop_zero]
      show (refill env k c).1.buffer_pos + min (128 - (refill env k c).1.buffer_pos) len ≤ 128
      omega
    · exact ih _ (by omega) _ _ hz

theorem bytesLoop_steps_from_full (env : Env) (c : QrngCtx) (k : Nat) (len : Nat)
    (hpos : 128 ≤ c.buffer_pos) (h1 : 0 < len) (h2 : len ≤ 128) :
    (bytesLoop env len c k).2.2.2 = 1 := by
  rw [bytesLoop, dif_neg (by omega)]
  show stepsTaken c + (bytesLoop env (len - min (128 - (refill env k c).1.buffer_pos) len) _ _).2.2.2 = 1
  rw [refill_of_ge env k c hpos]
  rw [quantum_step_buffer_pos]
  have hc : min (128 - 0) len = len := by omega
  rw [hc, Nat.sub_self, bytesLoop_zero]
  show stepsTaken c + 0 = 1
  unfold stepsTaken
  rw [if_pos hpos]

theorem bytesLoop_steps_129 (env : Env) (c : QrngCtx) (k : Nat) (hpos : c.buffer_pos = 0) :
    (bytesLoop env 129 c k).2.2.2 = 1 := by
  rw [bytesLoop, dif_neg (by norm_num)]
  show stepsTaken c + (bytesLoop env (129 - min (128 - (refill env k c).1.buffer_pos) 129) _ _).2.2.2 = 1
  rw [refill_of_lt env k c (by omega)]
  show stepsTaken c
    + (bytesLoop env (129 - min (128 - c.buffer_pos) 129)
        { c with buffer_pos := c.buffer_pos + min (128 - c.buffer_pos) 129 } k).2.2.2 = 1
  rw [hpos]
  have hc : min (128 - 0) 129 = 128 := by norm_num
  rw [hc]
  have h129 : (129 : Nat) - 128 = 1 := by norm_num
  rw [h129]
  rw [bytesLoop_steps_from_full env _ k 1 (by norm_num) (by norm_num) (by norm_num)]
  have hs : stepsTaken c = 0 := by
    unfold stepsTaken
    rw [hpos]
    norm_num
  rw [hs]

theorem reseedCore_buffer_pos (env : Env) (k : Nat) (c : QrngCtx) (s : List Nat) (len : Nat) :
    (reseedCore env k c s len).1.buffer_pos = 0 := by
  unfold reseedCore
  rw [warmup_buffer_pos]

theorem uint64_core_pos (env : Env) (k : Nat) (c : QrngCtx) :
    (qrng_uint64_core env k c).2.1.buffer_pos = (bytesLoop env 8 c k).1.buffer_pos := rfl

theorem entangleCtx_buffer_pos (env : Env) (k : Nat) (c : QrngCtx) :
    (entangleCtx env k c).buffer_pos = c.buffer_pos := rfl

theorem measureByte_buffer_pos (env : Env) (st : List Nat × QrngCtx × Nat × Nat) (b : Nat) :
    (measureByte env st b).2.1.buffer_pos = st.2.1.buffer_pos := rfl

theorem measureFinalLane_buffer_pos (env : Env) (st : QrngCtx × Nat) (i : Nat) :
    (measureFinalLane env st i).1.buffer_pos = st.1.buffer_pos := rfl

theorem measureCore_buffer_pos (env : Env) (k : Nat) (c : QrngCtx) (bs : List Nat) :
    (measureCore env k c bs).2.1.buffer_pos = c.buffer_pos := by
  unfold measureCore
  have h1 : ∀ (init : List Nat × QrngCtx × Nat × Nat), init.2.1.buffer_pos = c.buffer_pos →
      (bs.foldl (measureByte env) init).2.1.buffer_pos = c.buffer_pos :=
    fun init h => foldl_preserves (measureByte env) (fun t => t.2.1.buffer_pos = c.buffer_pos)
      (fun t a ht => by simp only [measureByte_buffer_pos]; exact ht) _ _ h
  have h2 : ∀ (init : QrngCtx × Nat), init.1.buffer_pos = c.buffer_pos →
      ((List.range 8).foldl (measureFinalLane env) init).1.buffer_pos = c.buffer_pos :=
    fun init h => foldl_preserves (measureFinalLane env) (fun t => t.1.buffer_pos = c.buffer_pos)
      (fun t a ht => by simp only [measureFinalLane_buffer_pos]; exact ht) _ _ h
  exact h2 _ (h1 _ rfl)

/-- The generator states the public API can produce: an initialized
state followed by any sequence of reseed, step, bulk byte read, uint64
draw, entangle_states or measure_state operations (range32, range64 and
double only draw through qrng_uint64, and the error paths leave the
state untouched). -/
inductive Reachable : QrngCtx → Prop where
  | init : ∀ (env : Env) (seed : Option (List Nat)) (len : Nat), seed ≠ some [] →
      Reachable (initCtx env seed len).1
  | reseed : ∀ (env : Env) (k : Nat) (c : QrngCtx) (s : List Nat) (len : Nat),
      Reachable c → Reachable (reseedCore env k c s len).1
  | step : ∀ (env : Env) (k : Nat) (c : QrngCtx), Reachable c →
      Reachable (quantum_step env k c).1
  | bytes : ∀ (env : Env) (len : Nat) (c : QrngCtx) (k : Nat), 0 < len →
      Reachable c → Reachable (bytesLoop env len c k).1
  | draw : ∀ (env : Env) (k : Nat) (c : QrngCtx), Reachable c →
      Reachable (qrng_uint64_core env k c).2.1
  | entangle : ∀ (env : Env) (k : Nat) (c : QrngCtx), Reachable c →
      Reachable (entangleCtx env k c)
  | measure : ∀ (env : Env) (k : Nat) (c : QrngCtx) (bs : List Nat), Reachable c →
      Reachable (measureCore env k c bs).2.1

theorem reachable_pos_le : ∀ (c : QrngCtx), Reachable c → c.buffer_pos ≤ 128 := by
  intro c h
  induction h with
  | init env seed len hs => rw [initCtx_buffer_pos]; norm_num
  | reseed env k c s len hc ih => rw [reseedCore_buffer_pos]; norm_num
  | step env k c hc ih => rw [quantum_step_buffer_pos]; norm_num
  | bytes env len c k hlen hc ih => exact bytesLoop_pos_le env len c k hlen
  | draw env k c hc ih => rw [uint64_core_pos]; exact bytesLoop_pos_le env 8 c k (by norm_num)
  | entangle env k c hc ih => rw [entangleCtx_buffer_pos]; exact ih
  | measure env k c bs hc ih => rw [measureCore_buffer_pos]; exact ih

/-- The result of a range draw lies within the bounds; a `none` result
means the rejection loop fuel ran out, in which case the C loop would
still be running. -/
def ResultWithin (res : Option (Nat × Option QrngCtx × Nat)) (lo hi : Nat) : Prop :=
  match res with
  | none => True
  | some p => lo ≤ p.1 ∧ p.1 ≤ hi

/-- Signed variant of `ResultWithin` for range32. -/
def ResultWithin32 (res : Option (Int × Option QrngCtx × Nat)) (lo hi : Int) : Prop :=
  match res with
  | none => True
  | some p => lo ≤ p.1 ∧ p.1 ≤ hi

theorem range64_loop_bounds (env : Env) (threshold range minv : Nat) (hr : 0 < range) :
    ∀ (fuel : Nat) (c : QrngCtx) (k : Nat) (r : Nat) (c1 : QrngCtx) (k1 : Nat),
      range64_loop env threshold range minv fuel c k = some (r, c1, k1) →
      ∃ d, d < range ∧ r = (minv + d) % U64 := by
  intro fuel
  induction fuel with
  | zero =>
    intro c k r c1 k1 h
    rw [range64_loop] at h
    exact absurd h (by simp)
  | succ n ih =>
    intro c k r c1 k1 h
    rw [range64_loop] at h
    split at h
    · exact ih _ _ _ _ _ h
    · refine ⟨(qrng_uint64_core env k c).1 % range, Nat.mod_lt _ hr, ?_⟩
      injection h with h1
      injection h1 with h2 h3
      exact h2.symm

theorem qrng_range64_bounds (env : Env) (k : Nat) (c : QrngCtx) (minv maxv fuel : Nat)
    (h1 : minv ≤ maxv) (h2 : maxv < U64) :
    ResultWithin (qrng_range64 env k (some c) minv maxv fuel) minv maxv := by
  unfold qrng_range64
  dsimp only
  rw [if_neg (by omega : ¬maxv < minv)]
  split
  · exact ⟨Nat.le_refl _, h1⟩
  · split
    · exact ⟨h1, Nat.le_refl _⟩
    · rename_i hne hz
      split
      · trivial
      · rename_i r c1 k1 heq
        obtain ⟨d, hd, hr⟩ := range64_loop_bounds env _ _ minv
          (by omega : 0 < (maxv - minv + 1) % U64) fuel c k r c1 k1 heq
        refine ⟨?_, ?_⟩ <;>
          (rw [hr]; simp only [U64] at *; omega)

theorem toU32_cast (m : Int) : ((toU32 m : Nat) : Int) = m % 4294967296 := by
  unfold toU32 U32
  omega

theorem toI32_eq (n : Nat) (m : Int) (hlo : -2147483648 ≤ m) (hhi : m < 2147483648)
    (hmod : (n : Int) % 4294967296 = m % 4294967296) : toI32 n = m := by
  unfold toI32
  split <;> (simp only [U32] at *; omega)

theorem range32_loop_bounds (env : Env) (threshold range : Nat) (minv : Int) (hr : 0 < range) :
    ∀ (fuel : Nat) (c : QrngCtx) (k : Nat) (r : Int) (c1 : QrngCtx) (k1 : Nat),
      range32_loop env threshold range minv fuel c k = some (r, c1, k1) →
      ∃ d, d < range ∧ r = toI32 (toU32 minv + d) := by
  intro fuel
  induction fuel with
  | zero =>
    intro c k r c1 k1 h
    rw [range32_loop] at h
    exact absurd h (by simp)
  | succ n ih =>
    intro c k r c1 k1 h
    rw [range32_loop] at h
    split at h
    · exact ih _ _ _ _ _ h
    · refine ⟨(qrng_uint64_core env k c).1 % U32 % range, Nat.mod_lt _ hr, ?_⟩
      injection h with h1
      injection h1 with h2 h3
      exact h2.symm

theorem qrng_range32_bounds (env : Env) (k : Nat) (c : QrngCtx) (minv maxv : Int) (fuel : Nat)
    (h0 : -2147483648 ≤ minv) (h1 : minv ≤ maxv) (h2 : maxv < 2147483648) :
    ResultWithin32 (qrng_range32 env k (some c) minv maxv fuel) minv maxv := by
  unfold qrng_range32
  dsimp only
  rw [if_neg (by omega : ¬maxv < minv)]
  split
  · exact ⟨h1, le_refl _⟩
  · rename_i hz
    split
    · trivial
    · rename_i r c1 k1 heq
      have hrpos : 0 < ((maxv - minv + 1) % (U32 : Int)).toNat := by
        simp only [U32] at *
        omega
      obtain ⟨d, hd, hr⟩ := range32_loop_bounds env _ _ minv hrpos fuel c k r c1 k1 heq
      have hd2 : (d : Int) ≤ maxv - minv := by
        simp only [U32] at hd hz
        omega
      have hri : r = minv + d := by
        rw [hr]
        refine toI32_eq _ _ (by omega) (by omega) ?_
        have hcast : ((toU32 minv + d : Nat) : Int) = minv % 4294967296 + d := by
          push_cast
          rw [toU32_cast]
        rw [hcast]
        omega
      exact ⟨by omega, by omega⟩

/-- The post-mix cascade that the C4 claim asserts qrng_uint64 performs:
its first fold is PAULI_X times (pool_mixer shifted right by 29), the
next three folds are those of measure_state step 7, and the tail folds
PAULI_Z times (r shifted right by 29). -/
def postmix_claimed (r0 re pool_mixer : Nat) : Nat :=
  let r := splitmix64 (r0 ^^^ re)
  let r := r ^^^ mul64 QRNG_PAULI_X (pool_mixer >>> 29)
  let r := mul64 r QRNG_HEISENBERG
  let r := r ^^^ mul64 QRNG_PAULI_Y (r >>> 31)
  let r := mul64 r QRNG_SCHRODINGER
  r ^^^ mul64 QRNG_PAULI_Z (r >>> 29)

/-- The five-fold cascade that qrng_uint64 actually applies after the
splitmix64 avalanche: PAULI_X against the result shifted by 27,
HEISENBERG, PAULI_Y against the result shifted by 31, SCHRODINGER, and
PAULI_Z against the result shifted by 29. -/
def postmix_cascade (x0 : Nat) : Nat :=
  let x := x0 ^^^ mul64 QRNG_PAULI_X (x0 >>> 27)
  let x := mul64 x QRNG_HEISENBERG
  let x := x ^^^ mul64 QRNG_PAULI_Y (x >>> 31)
  let x := mul64 x QRNG_SCHRODINGER
  x ^^^ mul64 QRNG_PAULI_Z (x >>> 29)

/-- The amended description of the qrng_uint64 post-mix: splitmix64 of
the fetched word XOR runtime entropy, then `postmix_cascade`. -/
def postmix_amended (r0 re : Nat) : Nat :=
  postmix_cascade (splitmix64 (r0 ^^^ re))

theorem qrng_bytes_success_eq (env : Env) (k : Nat) (c : QrngCtx) (len : Nat) (h : len ≠ 0) :
    qrng_bytes env k (some c) true len
      = (0, some (bytesLoop env len c k).1, (bytesLoop env len c k).2.1,
         (bytesLoop env len c k).2.2.1, (bytesLoop env len c k).2.2.2) := by
  unfold qrng_bytes
  dsimp only
  rw [if_neg (by simp), if_neg h]

theorem qrng_reseed_success_eq (env : Env) (k : Nat) (c : QrngCtx) (s : List Nat) (len : Nat)
    (h : len ≠ 0) :
    qrng_reseed env k (some c) (some s) len
      = (0, some (reseedCore env k c s len).1, (reseedCore env k c s len).2) := by
  unfold qrng_reseed
  dsimp only
  rw [if_neg (by simp), if_neg h]
  rfl

/-- A concrete all-zero host-entropy oracle used by the witnesses. -/
def env0 : Env where
  clock := fun _ => 0
  it_sec := 0
  it_usec := 0
  tv0_sec := 0
  tv0_usec := 0
  pid := 0
  clk := 0
  stack_addr := 0
  tsc := 0

/-- A concrete context whose refill buffer is fully consumed. -/
def cFull : QrngCtx := { zeroCtx with buffer_pos := 128 }

/-- C1: for every non-null state and all arguments with min ≤ max, if
qrng_range64 returns then its result r satisfies min ≤ r ≤ max
(including the full-domain case where range wraps to 0 and max is
returned), and likewise for qrng_range32 over int32. -/
theorem claim_range_within_bounds :
    (∀ (env : Env) (k : Nat) (c : QrngCtx) (minv maxv fuel : Nat),
        minv ≤ maxv → maxv < U64 →
        ResultWithin (qrng_range64 env k (some c) minv maxv fuel) minv maxv)
    ∧ (∀ (env : Env) (k : Nat) (c : QrngCtx) (minv maxv : Int) (fuel : Nat),
        -2147483648 ≤ minv → minv ≤ maxv → maxv < 2147483648 →
        ResultWithin32 (qrng_range32 env k (some c) minv maxv fuel) minv maxv) :=
  ⟨fun env k c minv maxv fuel h1 h2 => qrng_range64_bounds env k c minv maxv fuel h1 h2,
   fun env k c minv maxv fuel h0 h1 h2 => qrng_range32_bounds env k c minv maxv fuel h0 h1 h2⟩

theorem claim_range_within_bounds_witness :
    ((3 : Nat) ≤ 7 ∧ (7 : Nat) < U64
      ∧ ResultWithin (qrng_range64 env0 0 (some zeroCtx) 3 7 0) 3 7
      ∧ ResultWithin (qrng_range64 env0 0 (some zeroCtx) 0 (U64 - 1) 0) 0 (U64 - 1))
    ∧ ((-2147483648 : Int) ≤ -5 ∧ (-5 : Int) ≤ 5 ∧ (5 : Int) < 2147483648
      ∧ ResultWithin32 (qrng_range32 env0 0 (some zeroCtx) (-5) 5 0) (-5) 5) :=
  ⟨⟨by norm_num, by decide,
    claim_range_within_bounds.1 env0 0 zeroCtx 3 7 0 (by norm_num) (by decide),
    claim_range_within_bounds.1 env0 0 zeroCtx 0 (U64 - 1) 0 (by decide) (by decide)⟩,
   ⟨by norm_num, by norm_num, by norm_num,
    claim_range_within_bounds.2 env0 0 zeroCtx (-5) 5 0 (by norm_num) (by norm_num) (by norm_num)⟩⟩

/-- C2: for every non-null state, present output buffer and len > 0,
qrng_bytes writes exactly len bytes and returns 0; absent state gives
NullContext (-1), absent buffer NullBuffer (-2), len = 0 InvalidLength
(-3). -/
theorem claim_bytes_exact_fill :
    (∀ (env : Env) (k : Nat) (c : QrngCtx) (len : Nat), 0 < len →
        (qrng_bytes env k (some c) true len).1 = 0
        ∧ (qrng_bytes env k (some c) true len).2.2.2.1.length = len)
    ∧ (∀ (env : Env) (k : Nat) (outp : Bool) (len : Nat),
        (qrng_bytes env k none outp len).1 = -1)
    ∧ (∀ (env : Env) (k : Nat) (c : QrngCtx) (len : Nat),
        (qrng_bytes env k (some c) false len).1 = -2)
    ∧ (∀ (env : Env) (k : Nat) (c : QrngCtx), (qrng_bytes env k (some c) true 0).1 = -3) := by
  refine ⟨?_, ?_, ?_, ?_⟩
  · intro env k c len hlen
    rw [qrng_bytes_success_eq env k c len (by omega)]
    exact ⟨rfl, bytesLoop_length env len c k⟩
  · intro env k outp len; rfl
  · intro env k c len
    unfold qrng_bytes
    dsimp only
    rw [if_pos (by simp)]
  · intro env k c
    unfold qrng_bytes
    dsimp only
    rw [if_neg (by simp), if_pos rfl]

theorem claim_bytes_exact_fill_witness :
    (0 : Nat) < 5 ∧ ((qrng_bytes env0 0 (some zeroCtx) true 5).1 = 0
      ∧ (qrng_bytes env0 0 (some zeroCtx) true 5).2.2.2.1.length = 5) :=
  ⟨by norm_num, claim_bytes_exact_fill.1 env0 0 zeroCtx 5 (by norm_num)⟩

/-- C3: each quantum_step increments the counter exactly once; a
successful init leaves the counter at 8 (its 2 * MIXING_ROUNDS = 8
warm-up steps starting from the calloc-zeroed counter), and a
successful reseed advances the counter by exactly 8. -/
theorem claim_warmup_eight_steps :
    (∀ (env : Env) (k : Nat) (c : QrngCtx),
        (quantum_step env k c).1.counter = (c.counter + 1) % U64)
    ∧ (∀ (env : Env) (seed : Option (List Nat)) (len : Nat), seed ≠ some [] →
        (initCtx env seed len).1.counter = 8)
    ∧ (∀ (env : Env) (k : Nat) (c : QrngCtx) (s : List Nat) (len : Nat), 0 < len →
        qrng_reseed env k (some c) (some s) len
          = (0, some (reseedCore env k c s len).1, (reseedCore env k c s len).2)
        ∧ (reseedCore env k c s len).1.counter = (c.counter + 8) % U64) := by
  refine ⟨quantum_step_counter, ?_, ?_⟩
  · intro env seed len _
    exact initCtx_counter env seed len
  · intro env k c s len hlen
    exact ⟨qrng_reseed_success_eq env k c s len (by omega), reseedCore_counter env k c s len⟩

theorem claim_warmup_eight_steps_witness :
    ((none : Option (List Nat)) ≠ some [] ∧ (initCtx env0 none 0).1.counter = 8)
    ∧ ((0 : Nat) < 1
      ∧ (reseedCore env0 0 zeroCtx [1] 1).1.counter = (zeroCtx.counter + 8) % U64) :=
  ⟨⟨by simp, claim_warmup_eight_steps.2.1 env0 none 0 (by simp)⟩,
   ⟨by norm_num, (claim_warmup_eight_steps.2.2 env0 0 zeroCtx [1] 1 (by norm_num)).2⟩⟩

/-- C4 counterexample: at fetched word 1, runtime entropy 0 and pool
mixer 0, the post-mix that qrng_uint64 performs differs from the
cascade the claim describes, because the first fold of the code uses
the result shifted right by 27 while the claim asserts the pool mixer
shifted right by 29. -/
theorem claim_uint64_postmix_counterexample :
    uint64_postmix 1 0 ≠ postmix_claimed 1 0 0 := by decide

/-- C4 amended: the post-mix of qrng_uint64 equals splitmix64 of the
fetched word XOR the refreshed runtime entropy, followed by the cascade
PAULI_X (result shifted 27), HEISENBERG, PAULI_Y (result shifted 31),
SCHRODINGER, PAULI_Z (result shifted 29); the first fold uses the
result, not the pool mixer. -/
theorem claim_uint64_postmix_amended :
    (∀ r re : Nat, uint64_postmix r re = postmix_amended r re)
    ∧ (∀ (env : Env) (k : Nat) (c : QrngCtx),
        (qrng_uint64 env k (some c)).1
          = uint64_postmix (leWord (bytesLoop env 8 c k).2.2.1)
              (get_runtime_entropy env (bytesLoop env 8 c k).2.1 (bytesLoop env 8 c k).1)) :=
  ⟨fun _ _ => rfl, fun _ _ _ => rfl⟩

/-- C5: hadamard_mix equals the specification sequence: the splitmix64
avalanche followed by the fixed PAULI_X/FINE_STRUCTURE/PAULI_Y/PLANCK/
PAULI_Z/SCHRODINGER cascade with the final shift-13 fold, all
multiplications modulo 2^64 and all right shifts logical. -/
theorem claim_hadamard_mix_refines_spec :
    ∀ x : Nat, hadamard_mix x = hadamard_mix_specified x := fun _ => rfl

/-- C6: every reachable state has buffer_pos in [0, 128]; every
quantum_step resets buffer_pos to 0; a byte read entered with
buffer_pos ≥ 128 performs exactly one step before the first byte, and a
129-byte read from a fresh buffer performs exactly one step. -/
theorem claim_buffer_pos_invariants :
    (∀ c : QrngCtx, Reachable c → c.buffer_pos ≤ 128)
    ∧ (∀ (env : Env) (k : Nat) (c : QrngCtx), (quantum_step env k c).1.buffer_pos = 0)
    ∧ (∀ (env : Env) (c : QrngCtx) (k len : Nat), 128 ≤ c.buffer_pos → 0 < len → len ≤ 128 →
        (bytesLoop env len c k).2.2.2 = 1)
    ∧ (∀ (env : Env) (c : QrngCtx) (k : Nat), c.buffer_pos = 0 →
        (bytesLoop env 129 c k).2.2.2 = 1) :=
  ⟨reachable_pos_le, quantum_step_buffer_pos,
   fun env c k len h1 h2 h3 => bytesLoop_steps_from_full env c k len h1 h2 h3,
   fun env c k h => bytesLoop_steps_129 env c k h⟩

theorem claim_buffer_pos_invariants_witness :
    ((initCtx env0 none 0).1.buffer_pos ≤ 128)
    ∧ (128 ≤ cFull.buffer_pos ∧ (0 : Nat) < 64 ∧ (64 : Nat) ≤ 128
      ∧ (bytesLoop env0 64 cFull 0).2.2.2 = 1)
    ∧ (zeroCtx.buffer_pos = 0 ∧ (bytesLoop env0 129 zeroCtx 0).2.2.2 = 1) :=
  ⟨claim_buffer_pos_invariants.1 _ (Reachable.init env0 none 0 (by simp)),
   ⟨by decide, by decide, by decide,
    claim_buffer_pos_invariants.2.2.1 env0 cFull 0 64 (by decide) (by decide) (by decide)⟩,
   ⟨rfl, claim_buffer_pos_invariants.2.2.2 env0 zeroCtx 0 rfl⟩⟩

/-- C7: quantum_noise always lands in [0, 1); a quantum_step carries
the property that every quantum_state lane and every entropy pool slot
lies in [0, 1) from its pre-state to its post-state, and init
establishes it, so it holds after every step of any run.  Doubles are
modelled as real numbers. -/
theorem claim_unit_interval_invariants :
    (∀ x : ℝ, quantum_noise x ∈ Set.Ico (0 : ℝ) 1)
    ∧ (∀ (env : Env) (k : Nat) (c : QrngCtx), PoolOK c → LanesOK c →
        PoolOK (quantum_step env k c).1 ∧ LanesOK (quantum_step env k c).1)
    ∧ (∀ (env : Env) (seed : Option (List Nat)) (len : Nat),
        PoolOK (initCtx env seed len).1 ∧ LanesOK (initCtx env seed len).1) :=
  ⟨quantum_noise_mem_Ico, fun env k c hp hl => quantum_step_inv env k c hp hl,
   fun env seed len => initCtx_inv env seed len⟩

theorem claim_unit_interval_invariants_witness :
    PoolOK zeroCtx ∧ LanesOK zeroCtx
    ∧ (PoolOK (quantum_step env0 0 zeroCtx).1 ∧ LanesOK (quantum_step env0 0 zeroCtx).1) :=
  have hp : PoolOK zeroCtx := fun _ => ⟨le_refl 0, show (0 : ℝ) < 1 by norm_num⟩
  have hl : LanesOK zeroCtx := fun _ => ⟨le_refl 0, show (0 : ℝ) < 1 by norm_num⟩
  ⟨hp, hl, claim_unit_interval_invariants.2.1 env0 0 zeroCtx hp hl⟩

/-- C8: the seed byte folded into the init mixer update is
seed[i mod seed_len] for seed_len > 0 and 0 for a null seed, but for
the accepted argument pair of a non-null seed with seed_len = 0 the
code divides by zero in i % seed_len: the selection evaluates to the
undefined marker while qrng_init accepts the pair with success. -/
theorem claim_seed_byte_selection :
    seedByteMix (some []) 0 0 = none
    ∧ (∀ env : Env, (qrng_init env true (some []) 0).1 = 0)
    ∧ (∀ (a : Nat) (s : List Nat) (i : Nat),
        seedByteMix (some (a :: s)) (a :: s).length i
          = some ((a :: s).getD (i % (a :: s).length) 0))
    ∧ (∀ len i : Nat, seedByteMix none len i = some 0) := by
  refine ⟨rfl, ?_, ?_, ?_⟩
  · intro env
    unfold qrng_init
    rw [if_neg (by simp), if_neg (by simp)]
  · intro a s i
    unfold seedByteMix
    dsimp only
    rw [if_neg (by simp)]
  · intro len i; rfl

/-- C9: every public operation called with a null state returns its
documented sentinel: qrng_uint64 gives 0, qrng_double gives 0.0, the
range draws give max, and reseed, bytes, entangle_states,
measure_state, and init with a null out-parameter give NullContext
(-1). -/
theorem claim_null_state_sentinels :
    (∀ (env : Env) (k : Nat), (qrng_uint64 env k none).1 = 0)
    ∧ (∀ (env : Env) (k : Nat), (qrng_double env k none).1 = 0)
    ∧ (∀ (env : Env) (k : Nat) (minv maxv : Int) (fuel : Nat),
        qrng_range32 env k none minv maxv fuel = some (maxv, none, k))
    ∧ (∀ (env : Env) (k : Nat) (minv maxv fuel : Nat),
        qrng_range64 env k none minv maxv fuel = some (maxv, none, k))
    ∧ (∀ (env : Env) (k : Nat) (seed : Option (List Nat)) (len : Nat),
        (qrng_reseed env k none seed len).1 = -1)
    ∧ (∀ (env : Env) (k : Nat) (outp : Bool) (len : Nat),
        (qrng_bytes env k none outp len).1 = -1)
    ∧ (∀ (env : Env) (k : Nat) (s1 s2 : Option (List Nat)) (len : Nat),
        (qrng_entangle_states env k none s1 s2 len).1 = -1)
    ∧ (∀ (env : Env) (k : Nat) (st : Option (List Nat)) (len : Nat),
        (qrng_measure_state env k none st len).1 = -1)
    ∧ (∀ (env : Env) (seed : Option (List Nat)) (len : Nat),
        (qrng_init env false seed len).1 = -1) := by
  refine ⟨fun _ _ => rfl, fun _ _ => rfl, fun _ _ _ _ _ => rfl, fun _ _ _ _ _ => rfl,
    fun _ _ _ _ => rfl, fun _ _ _ _ => rfl, fun _ _ _ _ _ => rfl, fun _ _ _ _ => rfl, ?_⟩
  intro env seed len
  unfold qrng_init
  rw [if_pos (by simp)]

/-- C10: whenever qrng_reseed, qrng_bytes, qrng_entangle_states or
qrng_measure_state returns a nonzero code, the generator state, the
oracle position and all caller-owned buffers are unchanged; in
particular qrng_reseed with seed_len = 0 returns InvalidLength and
modifies nothing. -/
theorem claim_error_atomicity :
    (∀ (env : Env) (k : Nat) (c : QrngCtx) (seed : Option (List Nat)) (len : Nat),
        (qrng_reseed env k (some c) seed len).1 ≠ 0 →
        (qrng_reseed env k (some c) seed len).2.1 = some c
        ∧ (qrng_reseed env k (some c) seed len).2.2 = k)
    ∧ (∀ (env : Env) (k : Nat) (c : QrngCtx) (outp : Bool) (len : Nat),
        (qrng_bytes env k (some c) outp len).1 ≠ 0 →
        (qrng_bytes env k (some c) outp len).2.1 = some c
        ∧ (qrng_bytes env k (some c) outp len).2.2.1 = k
        ∧ (qrng_bytes env k (some c) outp len).2.2.2.1 = [])
    ∧ (∀ (env : Env) (k : Nat) (c : QrngCtx) (s1 s2 : Option (List Nat)) (len : Nat),
        (qrng_entangle_states env k (some c) s1 s2 len).1 ≠ 0 →
        (qrng_entangle_states env k (some c) s1 s2 len).2.1 = some c
        ∧ (qrng_entangle_states env k (some c) s1 s2 len).2.2.1 = s1
        ∧ (qrng_entangle_states env k (some c) s1 s2 len).2.2.2.1 = s2
        ∧ (qrng_entangle_states env k (some c) s1 s2 len).2.2.2.2 = k)
    ∧ (∀ (env : Env) (k : Nat) (c : QrngCtx) (st : Option (List Nat)) (len : Nat),
        (qrng_measure_state env k (some c) st len).1 ≠ 0 →
        (qrng_measure_state env k (some c) st len).2.1 = some c
        ∧ (qrng_measure_state env k (some c) st len).2.2.1 = st
        ∧ (qrng_measure_state env k (some c) st len).2.2.2 = k)
    ∧ (∀ (env : Env) (k : Nat) (c : QrngCtx) (s : List Nat),
        qrng_reseed env k (some c) (some s) 0 = (-3, some c, k)) := by
  refine ⟨?_, ?_, ?_, ?_, ?_⟩
  · intro env k c seed len
    unfold qrng_reseed
    dsimp only
    split
    · intro _; exact ⟨rfl, rfl⟩
    · split
      · intro _; exact ⟨rfl, rfl⟩
      · intro h; exact absurd rfl h
  · intro env k c outp len
    unfold qrng_bytes
    dsimp only
    split
    · intro _; exact ⟨rfl, rfl, rfl⟩
    · split
      · intro _; exact ⟨rfl, rfl, rfl⟩
      · intro h; exact absurd rfl h
  · intro env k c s1 s2 len
    unfold qrng_entangle_states
    dsimp only
    split
    · intro _; exact ⟨rfl, rfl, rfl, rfl⟩
    · split
      · intro _; exact ⟨rfl, rfl, rfl, rfl⟩
      · intro h; exact absurd rfl h
  · intro env k c st len
    unfold qrng_measure_state
    dsimp only
    split
    · intro _; exact ⟨rfl, rfl, rfl⟩
    · split
      · intro _; exact ⟨rfl, rfl, rfl⟩
      · intro h; exact absurd rfl h
  · intro env k c s
    unfold qrng_reseed
    dsimp only
    rw [if_neg (by simp), if_pos rfl]

theorem claim_error_atomicity_witness :
    ((qrng_reseed env0 0 (some zeroCtx) none 5).1 ≠ 0
      ∧ ((qrng_reseed env0 0 (some zeroCtx) none 5).2.1 = some zeroCtx
        ∧ (qrng_reseed env0 0 (some zeroCtx) none 5).2.2 = 0))
    ∧ ((qrng_bytes env0 0 (some zeroCtx) true 0).1 ≠ 0
      ∧ ((qrng_bytes env0 0 (some zeroCtx) true 0).2.1 = some zeroCtx
        ∧ (qrng_bytes env0 0 (some zeroCtx) true 0).2.2.1 = 0
        ∧ (qrng_bytes env0 0 (some zeroCtx) true 0).2.2.2.1 = []))
    ∧ ((qrng_entangle_states env0 0 (some zeroCtx) none none 1).1 ≠ 0
      ∧ ((qrng_entangle_states env0 0 (some zeroCtx) none none 1).2.1 = some zeroCtx
        ∧ (qrng_entangle_states env0 0 (some zeroCtx) none none 1).2.2.1 = none
        ∧ (qrng_entangle_states env0 0 (some zeroCtx) none none 1).2.2.2.1 = none
        ∧ (qrng_entangle_states env0 0 (some zeroCtx) none none 1).2.2.2.2 = 0))
    ∧ ((qrng_measure_state env0 0 (some zeroCtx) none 1).1 ≠ 0
      ∧ ((qrng_measure_state env0 0 (some zeroCtx) none 1).2.1 = some zeroCtx
        ∧ (qrng_measure_state env0 0 (some zeroCtx) none 1).2.2.1 = none
        ∧ (qrng_measure_state env0 0 (some zeroCtx) none 1).2.2.2 = 0)) :=
  ⟨⟨by decide, claim_error_atomicity.1 env0 0 zeroCtx none 5 (by decide)⟩,
   ⟨by decide, claim_error_atomicity.2.1 env0 0 zeroCtx true 0 (by decide)⟩,
   ⟨by decide, claim_error_atomicity.2.2.1 env0 0 zeroCtx none none 1 (by decide)⟩,
   ⟨by decide, claim_error_atomicity.2.2.2.1 env0 0 zeroCtx none 1 (by decide)⟩⟩

end QRng
